import Mathlib

/-!
Verification of the diff-hound response-interpretation and prompt-orchestration
core: a shallow embedding of the TypeScript sources
(`src/core/parseUnifiedDiff.ts`, `src/schemas/validate.ts`,
`src/schemas/review-response.ts`, `src/models/base.ts`) together with theorems
about the embedded functions.

Modelling conventions:
* JavaScript numbers are modelled as rationals (`ℚ`); every numeric value
  involved in the verified properties (line numbers, confidences such as
  `0.6` and `0.59999`) is exactly representable.
* Optional / possibly-`undefined` fields are modelled as `Option`.
* Decoded JSON values are modelled by the inductive type `Json`; objects are
  association lists with distinct keys (the shape `JSON.parse` produces).
* The JavaScript builtin `JSON.parse` is not code of this repository; functions
  that call it take a `jsonParse : String → Option Json` parameter standing for
  it (`none` models a thrown `SyntaxError`).
* Imperative accumulation loops are translated to structural recursion that
  appends the same elements in the same order.
* All functions are pure and total; "never throws" and "never mutates its
  input" hold intrinsically for every embedded definition.
-/

/-- Status of a changed file, `FileChange.status` in `src/types/index.ts`. -/
inductive FileStatus
  | added
  | modified
  | deleted
  | renamed
deriving DecidableEq, Repr

/-- `FileChange` from `src/types/index.ts`. -/
structure FileChange where
  filename : String
  status : FileStatus
  additions : Nat
  deletions : Nat
  patch : Option String
  previousFilename : Option String
deriving DecidableEq, Repr

/-- The subset of `ReviewConfig` (`src/types/index.ts`) read by the embedded
components.  `severity` is kept as an arbitrary optional string because the
filtering code in `base.ts` treats it as one (via an unchecked cast). -/
structure ReviewConfig where
  severity : Option String
  commentStyle : Option String
  ignoreFiles : Option (List String)
  rules : Option (List String)
  customPrompt : Option String
deriving DecidableEq, Repr

/-- `AIComment` from `src/types/index.ts` (the `suggestions` and `created_at`
fields are never set by the embedded components and are omitted). -/
structure AIComment where
  type : String
  path : Option String
  line : Option ℚ
  content : String
  severity : Option String
deriving DecidableEq, Repr

/-! ## String primitives

JavaScript string operations (`split("\n")`, `join("\n")`, `startsWith`,
`endsWith`, `trim`) are modelled by structurally recursive functions over
`List Char` so that concrete instances evaluate inside the kernel. -/

/-- JavaScript whitespace class `\s` (the characters relevant here). -/
def isSpaceJs (c : Char) : Bool :=
  c == ' ' || c == '\t' || c == '\n' || c == '\r' ||
    c == Char.ofNat 11 || c == Char.ofNat 12

/-- `String.prototype.split("\n")`: every occurrence separates, empty pieces
are kept, and the empty string yields `[""]`. -/
def splitNlChars : List Char → List (List Char)
  | [] => [[]]
  | '\n' :: rest => [] :: splitNlChars rest
  | c :: rest =>
    match splitNlChars rest with
    | [] => [[c]]
    | l :: ls => (c :: l) :: ls

/-- `s.split("\n")` on strings. -/
def strSplitNl (s : String) : List String := (splitNlChars s.data).map String.mk

/-- `Array.prototype.join("\n")`. -/
def strJoinNl : List String → String
  | [] => ""
  | [s] => s
  | s :: rest => s ++ "\n" ++ strJoinNl rest

/-- `String.prototype.startsWith`. -/
def strStartsWith (s pre : String) : Bool := pre.data.isPrefixOf s.data

/-- `String.prototype.endsWith`. -/
def strEndsWith (s suf : String) : Bool := suf.data.isSuffixOf s.data

/-- `String.prototype.trim`. -/
def strTrim (s : String) : String :=
  String.mk (((s.data.dropWhile isSpaceJs).reverse.dropWhile isSpaceJs).reverse)

/-! ## Diff Annotator (`src/core/parseUnifiedDiff.ts`) -/

/-- Digit run to a natural number, as `parseInt(_, 10)` on a `\d+` capture. -/
def digitsToNat (ds : List Char) : Nat :=
  ds.foldl (fun n c => n * 10 + (c.toNat - '0'.toNat)) 0

/-- Consume a `\d+` group: the maximal nonempty digit prefix. -/
def parseDigits (cs : List Char) : Option (Nat × List Char) :=
  let ds := cs.takeWhile Char.isDigit
  if ds.isEmpty then none else some (digitsToNat ds, cs.dropWhile Char.isDigit)

/-- Consume an optional `(?:,\d+)?` group (greedy, matching empty when `,` is
not followed by a digit). -/
def skipOptionalLen (cs : List Char) : List Char :=
  match cs with
  | ',' :: rest =>
    if (rest.takeWhile Char.isDigit).isEmpty then cs
    else rest.dropWhile Char.isDigit
  | _ => cs

/-- Match of `/^@@ -\d+(?:,\d+)? \+(\d+)(?:,\d+)? @@/` against a line,
returning the captured new-file start number on success. -/
def matchHunkHeader (line : String) : Option Nat :=
  match line.data with
  | '@' :: '@' :: ' ' :: '-' :: r1 =>
    match parseDigits r1 with
    | none => none
    | some (_, r2) =>
      match skipOptionalLen r2 with
      | ' ' :: '+' :: r3 =>
        match parseDigits r3 with
        | none => none
        | some (newStart, r4) =>
          match skipOptionalLen r4 with
          | ' ' :: '@' :: '@' :: _ => some newStart
          | _ => none
      | _ => none
  | _ => none

/-- JavaScript truthiness of the optional `patch` field: absent or empty. -/
def patchFalsy : Option String → Bool
  | none => true
  | some s => s == ""

/-- The line-rewriting loop of `parseUnifiedDiff`, carrying the running
new-file line number and per-hunk offset. -/
def annotateDiffLines (newLineNum lineOffset : Nat) : List String → List String
  | [] => []
  | line :: rest =>
    match matchHunkHeader line with
    | some n => line :: annotateDiffLines n 0 rest
    | none =>
      if strStartsWith line "+" && !strStartsWith line "+++" then
        (line ++ " // LINE_NUMBER: " ++ toString (newLineNum + lineOffset)) ::
          annotateDiffLines newLineNum (lineOffset + 1) rest
      else if strStartsWith line "-" && !strStartsWith line "---" then
        line :: annotateDiffLines newLineNum lineOffset rest
      else
        line :: annotateDiffLines newLineNum (lineOffset + 1) rest

/-- Per-file body of `parseUnifiedDiff`'s `map` callback. -/
def annotateFile (file : FileChange) : FileChange :=
  if patchFalsy file.patch || file.status == .deleted then file
  else
    match file.patch with
    | none => file
    | some p =>
      { file with patch := some (strJoinNl (annotateDiffLines 0 0 (strSplitNl p))) }

/-- `parseUnifiedDiff` from `src/core/parseUnifiedDiff.ts`. -/
def parseUnifiedDiff (files : List FileChange) : List FileChange :=
  files.map annotateFile

/-! ## Lemmas about the Diff Annotator -/

theorem matchHunkHeader_none_of_plus (line : String)
    (h : strStartsWith line "+" = true) : matchHunkHeader line = none := by
  have h' : List.isPrefixOf ['+'] line.data = true := h
  unfold matchHunkHeader
  cases hd : line.data with
  | nil => rfl
  | cons c rest =>
    rw [hd] at h'
    simp only [List.isPrefixOf, Bool.and_eq_true, beq_iff_eq] at h'
    obtain ⟨hc, -⟩ := h'
    subst hc
    rfl

theorem annotateDiffLines_cons_hunk {line : String} {rest : List String} {n off m : Nat}
    (hm : matchHunkHeader line = some m) :
    annotateDiffLines n off (line :: rest) = line :: annotateDiffLines m 0 rest := by
  conv_lhs => rw [annotateDiffLines.eq_def]
  simp [hm]

theorem annotateDiffLines_cons_add {line : String} {rest : List String} {n off : Nat}
    (hm : matchHunkHeader line = none)
    (h1 : (strStartsWith line "+" && !strStartsWith line "+++") = true) :
    annotateDiffLines n off (line :: rest) =
      (line ++ " // LINE_NUMBER: " ++ toString (n + off)) ::
        annotateDiffLines n (off + 1) rest := by
  conv_lhs => rw [annotateDiffLines.eq_def]
  simp [hm, h1]

theorem annotateDiffLines_cons_removed {line : String} {rest : List String} {n off : Nat}
    (hm : matchHunkHeader line = none)
    (h1 : (strStartsWith line "+" && !strStartsWith line "+++") = false)
    (h2 : (strStartsWith line "-" && !strStartsWith line "---") = true) :
    annotateDiffLines n off (line :: rest) = line :: annotateDiffLines n off rest := by
  conv_lhs => rw [annotateDiffLines.eq_def]
  simp [hm, h1, h2]

theorem annotateDiffLines_cons_context {line : String} {rest : List String} {n off : Nat}
    (hm : matchHunkHeader line = none)
    (h1 : (strStartsWith line "+" && !strStartsWith line "+++") = false)
    (h2 : (strStartsWith line "-" && !strStartsWith line "---") = false) :
    annotateDiffLines n off (line :: rest) = line :: annotateDiffLines n (off + 1) rest := by
  conv_lhs => rw [annotateDiffLines.eq_def]
  simp [hm, h1, h2]

theorem annotateDiffLines_length (ls : List String) :
    ∀ n off : Nat, (annotateDiffLines n off ls).length = ls.length := by
  induction ls with
  | nil => intro n off; rfl
  | cons line rest ih =>
    intro n off
    unfold annotateDiffLines
    cases hm : matchHunkHeader line with
    | some m => simp [ih]
    | none =>
      by_cases h1 : (strStartsWith line "+" && !strStartsWith line "+++") = true
      · simp [h1, ih]
      · by_cases h2 : (strStartsWith line "-" && !strStartsWith line "---") = true
        · simp [h1, h2, ih]
        · simp [h1, h2, ih]

theorem annotateDiffLines_append (pre suf : List String) :
    ∀ n off : Nat, ∃ n₁ off₁ : Nat,
      annotateDiffLines n off (pre ++ suf) =
        annotateDiffLines n off pre ++ annotateDiffLines n₁ off₁ suf := by
  induction pre with
  | nil => intro n off; exact ⟨n, off, rfl⟩
  | cons line rest ih =>
    intro n off
    rw [List.cons_append]
    cases hm : matchHunkHeader line with
    | some m =>
      obtain ⟨n₁, off₁, h⟩ := ih m 0
      exact ⟨n₁, off₁, by
        rw [annotateDiffLines_cons_hunk hm, annotateDiffLines_cons_hunk hm, h,
          List.cons_append]⟩
    | none =>
      cases h1 : (strStartsWith line "+" && !strStartsWith line "+++") with
      | true =>
        obtain ⟨n₁, off₁, h⟩ := ih n (off + 1)
        exact ⟨n₁, off₁, by
          rw [annotateDiffLines_cons_add hm h1, annotateDiffLines_cons_add hm h1, h,
            List.cons_append]⟩
      | false =>
        cases h2 : (strStartsWith line "-" && !strStartsWith line "---") with
        | true =>
          obtain ⟨n₁, off₁, h⟩ := ih n off
          exact ⟨n₁, off₁, by
            rw [annotateDiffLines_cons_removed hm h1 h2,
              annotateDiffLines_cons_removed hm h1 h2, h, List.cons_append]⟩
        | false =>
          obtain ⟨n₁, off₁, h⟩ := ih n (off + 1)
          exact ⟨n₁, off₁, by
            rw [annotateDiffLines_cons_context hm h1 h2,
              annotateDiffLines_cons_context hm h1 h2, h, List.cons_append]⟩

theorem annotateDiffLines_allAdded (added : List String)
    (h : ∀ l ∈ added, strStartsWith l "+" = true ∧ strStartsWith l "+++" = false) :
    ∀ n off i : Nat, i < added.length →
      (annotateDiffLines n off added)[i]? =
        (added[i]?).map (· ++ " // LINE_NUMBER: " ++ toString (n + off + i)) := by
  induction added with
  | nil => intro n off i hi; simp at hi
  | cons l rest ih =>
    intro n off i hi
    obtain ⟨hl1, hl2⟩ := h l (by simp)
    have hmk : matchHunkHeader l = none := matchHunkHeader_none_of_plus l hl1
    unfold annotateDiffLines
    rw [hmk]
    simp only [hl1, hl2, Bool.not_false, Bool.and_true, if_true]
    cases i with
    | zero => simp
    | succ j =>
      have hj : j < rest.length := by simpa using hi
      have := ih (fun x hx => h x (by simp [hx])) n (off + 1) j hj
      simp only [List.getElem?_cons_succ, this]
      have harith : n + (off + 1) + j = n + off + (j + 1) := by omega
      rw [harith]

theorem annotateFile_preserves (file : FileChange) :
    (annotateFile file).filename = file.filename ∧
    (annotateFile file).status = file.status ∧
    (annotateFile file).additions = file.additions ∧
    (annotateFile file).deletions = file.deletions ∧
    (annotateFile file).previousFilename = file.previousFilename := by
  unfold annotateFile
  split
  · exact ⟨rfl, rfl, rfl, rfl, rfl⟩
  · split
    · exact ⟨rfl, rfl, rfl, rfl, rfl⟩
    · exact ⟨rfl, rfl, rfl, rfl, rfl⟩

theorem annotateFile_id_of_frozen (file : FileChange)
    (h : file.status = .deleted ∨ file.patch = none) : annotateFile file = file := by
  unfold annotateFile
  have : (patchFalsy file.patch || file.status == FileStatus.deleted) = true := by
    rcases h with h | h
    · simp [h]
    · simp [h, patchFalsy]
  rw [this]
  simp

theorem annotateFile_patch_eq (file : FileChange) (p : String)
    (hp : file.patch = some p)
    (hfalsy : patchFalsy file.patch = false)
    (hdel : file.status ≠ .deleted) :
    (annotateFile file).patch = some (strJoinNl (annotateDiffLines 0 0 (strSplitNl p))) := by
  have hcond : (patchFalsy file.patch || file.status == FileStatus.deleted) = false := by
    rw [hfalsy]
    simp [hdel]
  unfold annotateFile
  rw [hcond]
  simp only [Bool.false_eq_true, if_false]
  rw [hp]

/-- C4: for every FileChange whose patch contains a hunk header
`@@ -a,b +c,d @@` followed by k consecutive added lines with no intervening
context or removed lines, the Diff Annotator annotates the i-th of those added
lines (1-indexed) with line number `c + i - 1` (below the offset `i` is
0-indexed, so the annotated number is `c + i`). -/
theorem C4_added_lines_numbering (file : FileChange) (p header : String)
    (pre added post : List String) (c : Nat)
    (hp : file.patch = some p)
    (hfalsy : patchFalsy file.patch = false)
    (hdel : file.status ≠ .deleted)
    (hsplit : strSplitNl p = pre ++ header :: (added ++ post))
    (hheader : matchHunkHeader header = some c)
    (hadded : ∀ l ∈ added, strStartsWith l "+" = true ∧ strStartsWith l "+++" = false) :
    ∃ pre' body post' : List String,
      annotateDiffLines 0 0 (strSplitNl p) = pre' ++ header :: (body ++ post') ∧
      pre'.length = pre.length ∧
      body.length = added.length ∧
      (∀ i : Nat, i < added.length →
        body[i]? = (added[i]?).map (· ++ " // LINE_NUMBER: " ++ toString (c + i))) ∧
      (annotateFile file).patch = some (strJoinNl (pre' ++ header :: (body ++ post'))) := by
  obtain ⟨n₁, off₁, hs1⟩ := annotateDiffLines_append pre (header :: (added ++ post)) 0 0
  rw [annotateDiffLines_cons_hunk hheader] at hs1
  obtain ⟨n₂, off₂, hs2⟩ := annotateDiffLines_append added post c 0
  rw [hs2] at hs1
  refine ⟨annotateDiffLines 0 0 pre, annotateDiffLines c 0 added,
    annotateDiffLines n₂ off₂ post, ?_, annotateDiffLines_length pre 0 0,
    annotateDiffLines_length added c 0, ?_, ?_⟩
  · rw [hsplit, hs1]
  · intro i hi
    have h := annotateDiffLines_allAdded added hadded c 0 i hi
    simpa using h
  · rw [annotateFile_patch_eq file p hp hfalsy hdel, hsplit, hs1]

/-- Closed witness for `C4_added_lines_numbering` at a concrete file. -/
theorem C4_witness :
    ∃ pre' body post' : List String,
      annotateDiffLines 0 0 (strSplitNl "@@ -3,2 +7,3 @@\n+a\n+b") =
        pre' ++ "@@ -3,2 +7,3 @@" :: (body ++ post') ∧
      pre'.length = ([] : List String).length ∧
      body.length = (["+a", "+b"] : List String).length ∧
      (∀ i : Nat, i < (["+a", "+b"] : List String).length →
        body[i]? =
          ((["+a", "+b"] : List String)[i]?).map
            (· ++ " // LINE_NUMBER: " ++ toString (7 + i))) ∧
      (annotateFile
          ⟨"f.ts", .modified, 2, 0, some "@@ -3,2 +7,3 @@\n+a\n+b", none⟩).patch =
        some (strJoinNl (pre' ++ "@@ -3,2 +7,3 @@" :: (body ++ post'))) :=
  C4_added_lines_numbering
    ⟨"f.ts", .modified, 2, 0, some "@@ -3,2 +7,3 @@\n+a\n+b", none⟩
    "@@ -3,2 +7,3 @@\n+a\n+b" "@@ -3,2 +7,3 @@" [] ["+a", "+b"] [] 7
    rfl (by decide) (by decide) (by decide) (by decide) (by decide)

/-- C2 counterexample: in a two-hunk patch whose second hunk header
`@@ -20,3 +20,5 @@` is immediately followed by 3 consecutive added lines, the
Diff Annotator annotates those lines 20, 21, 22 — not 21, 22, 23 as claimed
(the line numbered 21 in the repository test arises only because a context
line precedes the additions there). -/
theorem C2_counterexample :
    parseUnifiedDiff
        [⟨"a.ts", .modified, 4, 0,
          some "@@ -1,1 +1,1 @@\n+x\n@@ -20,3 +20,5 @@\n+a\n+b\n+c", none⟩] =
      [⟨"a.ts", .modified, 4, 0,
        some "@@ -1,1 +1,1 @@\n+x // LINE_NUMBER: 1\n@@ -20,3 +20,5 @@\n+a // LINE_NUMBER: 20\n+b // LINE_NUMBER: 21\n+c // LINE_NUMBER: 22",
        none⟩] ∧
    ("@@ -1,1 +1,1 @@\n+x // LINE_NUMBER: 1\n@@ -20,3 +20,5 @@\n+a // LINE_NUMBER: 20\n+b // LINE_NUMBER: 21\n+c // LINE_NUMBER: 22" : String) ≠
      "@@ -1,1 +1,1 @@\n+x // LINE_NUMBER: 1\n@@ -20,3 +20,5 @@\n+a // LINE_NUMBER: 21\n+b // LINE_NUMBER: 22\n+c // LINE_NUMBER: 23" := by
  exact ⟨by decide, by decide⟩

/-- C2 amended: for a FileChange whose patch contains a hunk with header
`@@ -20,3 +20,5 @@` immediately followed by 3 consecutive added lines, the
Diff Annotator annotates those three added lines with line numbers 20, 21 and
22, regardless of any earlier hunk's numbering. -/
theorem C2_amended_second_hunk_numbers (file : FileChange) (p l1 l2 l3 : String)
    (pre post : List String)
    (hp : file.patch = some p)
    (hfalsy : patchFalsy file.patch = false)
    (hdel : file.status ≠ .deleted)
    (hsplit : strSplitNl p = pre ++ "@@ -20,3 +20,5 @@" :: l1 :: l2 :: l3 :: post)
    (h1 : strStartsWith l1 "+" = true ∧ strStartsWith l1 "+++" = false)
    (h2 : strStartsWith l2 "+" = true ∧ strStartsWith l2 "+++" = false)
    (h3 : strStartsWith l3 "+" = true ∧ strStartsWith l3 "+++" = false) :
    ∃ pre' post' : List String,
      annotateDiffLines 0 0 (strSplitNl p) =
        pre' ++ "@@ -20,3 +20,5 @@" ::
          (l1 ++ " // LINE_NUMBER: " ++ toString 20) ::
          (l2 ++ " // LINE_NUMBER: " ++ toString 21) ::
          (l3 ++ " // LINE_NUMBER: " ++ toString 22) :: post' ∧
      pre'.length = pre.length ∧
      (annotateFile file).patch =
        some (strJoinNl (pre' ++ "@@ -20,3 +20,5 @@" ::
          (l1 ++ " // LINE_NUMBER: " ++ toString 20) ::
          (l2 ++ " // LINE_NUMBER: " ++ toString 21) ::
          (l3 ++ " // LINE_NUMBER: " ++ toString 22) :: post')) := by
  obtain ⟨n₁, off₁, hs1⟩ :=
    annotateDiffLines_append pre ("@@ -20,3 +20,5 @@" :: l1 :: l2 :: l3 :: post) 0 0
  have hh : matchHunkHeader "@@ -20,3 +20,5 @@" = some 20 := by decide
  rw [annotateDiffLines_cons_hunk hh,
    annotateDiffLines_cons_add (matchHunkHeader_none_of_plus l1 h1.1)
      (by simp [h1.1, h1.2]),
    annotateDiffLines_cons_add (matchHunkHeader_none_of_plus l2 h2.1)
      (by simp [h2.1, h2.2]),
    annotateDiffLines_cons_add (matchHunkHeader_none_of_plus l3 h3.1)
      (by simp [h3.1, h3.2])] at hs1
  have e20 : toString (20 + 0 : Nat) = toString (20 : Nat) := rfl
  have e21 : toString (20 + (0 + 1) : Nat) = toString (21 : Nat) := rfl
  have e22 : toString (20 + (0 + 1 + 1) : Nat) = toString (22 : Nat) := rfl
  rw [e20, e21, e22] at hs1
  refine ⟨annotateDiffLines 0 0 pre, annotateDiffLines 20 (0 + 1 + 1 + 1) post, ?_,
    annotateDiffLines_length pre 0 0, ?_⟩
  · rw [hsplit, hs1]
  · rw [annotateFile_patch_eq file p hp hfalsy hdel, hsplit, hs1]

/-- Closed witness for `C2_amended_second_hunk_numbers` on a two-hunk patch. -/
theorem C2_witness :
    ∃ pre' post' : List String,
      annotateDiffLines 0 0
          (strSplitNl "@@ -1,1 +1,1 @@\n+x\n@@ -20,3 +20,5 @@\n+a\n+b\n+c") =
        pre' ++ "@@ -20,3 +20,5 @@" ::
          ("+a" ++ " // LINE_NUMBER: " ++ toString 20) ::
          ("+b" ++ " // LINE_NUMBER: " ++ toString 21) ::
          ("+c" ++ " // LINE_NUMBER: " ++ toString 22) :: post' ∧
      pre'.length = (["@@ -1,1 +1,1 @@", "+x"] : List String).length ∧
      (annotateFile
          ⟨"b.ts", .modified, 4, 0,
            some "@@ -1,1 +1,1 @@\n+x\n@@ -20,3 +20,5 @@\n+a\n+b\n+c", none⟩).patch =
        some (strJoinNl (pre' ++ "@@ -20,3 +20,5 @@" ::
          ("+a" ++ " // LINE_NUMBER: " ++ toString 20) ::
          ("+b" ++ " // LINE_NUMBER: " ++ toString 21) ::
          ("+c" ++ " // LINE_NUMBER: " ++ toString 22) :: post')) :=
  C2_amended_second_hunk_numbers
    ⟨"b.ts", .modified, 4, 0,
      some "@@ -1,1 +1,1 @@\n+x\n@@ -20,3 +20,5 @@\n+a\n+b\n+c", none⟩
    "@@ -1,1 +1,1 @@\n+x\n@@ -20,3 +20,5 @@\n+a\n+b\n+c" "+a" "+b" "+c"
    ["@@ -1,1 +1,1 @@", "+x"] []
    rfl (by decide) (by decide) (by decide) (by decide) (by decide) (by decide)

/-- C9: for every FileChange with `status = deleted` or no patch present, the
Diff Annotator's output element is structurally equal to the input element on
all fields; and over any input list the output is a new list of the same
length whose elements are derived copies agreeing with the input on every
field other than `patch` (the embedding is pure, so the input list and its
elements are never mutated). -/
theorem C9_annotator_frame_properties (files : List FileChange) :
    (parseUnifiedDiff files).length = files.length ∧
    ∀ i : Nat, ∀ file : FileChange, files[i]? = some file →
      ∃ file' : FileChange,
        (parseUnifiedDiff files)[i]? = some file' ∧
        file'.filename = file.filename ∧
        file'.status = file.status ∧
        file'.additions = file.additions ∧
        file'.deletions = file.deletions ∧
        file'.previousFilename = file.previousFilename ∧
        ((file.status = .deleted ∨ file.patch = none) → file' = file) := by
  refine ⟨by simp [parseUnifiedDiff], ?_⟩
  intro i file hfi
  refine ⟨annotateFile file, ?_, ?_⟩
  · simp [parseUnifiedDiff, hfi]
  · obtain ⟨h1, h2, h3, h4, h5⟩ := annotateFile_preserves file
    exact ⟨h1, h2, h3, h4, h5, fun h => annotateFile_id_of_frozen file h⟩

/-- Closed witness for `C9_annotator_frame_properties`: a deleted file with a
patch passes through structurally unchanged. -/
theorem C9_witness :
    ∃ file' : FileChange,
      (parseUnifiedDiff
          [⟨"gone.ts", .deleted, 0, 3, some "diff content here", none⟩])[0]? =
        some file' ∧
      file'.filename = "gone.ts" ∧
      file'.status = .deleted ∧
      file'.additions = 0 ∧
      file'.deletions = 3 ∧
      file'.previousFilename = none ∧
      ((FileStatus.deleted = .deleted ∨
          (some "diff content here" : Option String) = none) →
        file' = ⟨"gone.ts", .deleted, 0, 3, some "diff content here", none⟩) :=
  (C9_annotator_frame_properties
      [⟨"gone.ts", .deleted, 0, 3, some "diff content here", none⟩]).2
    0 ⟨"gone.ts", .deleted, 0, 3, some "diff content here", none⟩ rfl

/-! ## Orchestrator file filter (`BaseReviewModel.filterIgnoredFiles`) -/

/-- `String.prototype.indexOf` for a single character: first index or -1. -/
def strIndexOf (s : String) (c : Char) : Int :=
  match s.data.findIdx? (· == c) with
  | some i => (i : Int)
  | none => -1

/-- The ignore-pattern test from the `some` callback in
`BaseReviewModel.filterIgnoredFiles`: basic glob matching for `*.ext`
(a pattern starting with `*` whose first `.` is at index ≥ 1 matches by the
suffix obtained by removing the leading `*`), otherwise exact equality. -/
def matchesIgnore (pattern filename : String) : Bool :=
  if strStartsWith pattern "*" ∧ 0 < strIndexOf pattern '.' then
    strEndsWith filename (String.mk (pattern.data.drop 1))
  else filename == pattern

/-- `BaseReviewModel.filterIgnoredFiles` from `src/models/base.ts`. -/
def BaseReviewModel.filterIgnoredFiles (diff : List FileChange)
    (config : ReviewConfig) : List FileChange :=
  match config.ignoreFiles with
  | none => diff
  | some patterns =>
    if patterns.isEmpty then diff
    else diff.filter fun file => !patterns.any fun pattern =>
      matchesIgnore pattern file.filename

/-- C3 counterexample: the pattern `*foo.ts` is not of the exact form
`*.<ext>` (it does not start with `*.`), and `"barfoo.ts"` is not exactly
equal to it, yet the filter removes the file (the code suffix-matches every
pattern that starts with `*` and contains a `.` at index ≥ 1). -/
theorem C3_counterexample :
    BaseReviewModel.filterIgnoredFiles
        [⟨"barfoo.ts", .modified, 1, 0, none, none⟩]
        ⟨none, none, some ["*foo.ts"], none, none⟩ = [] ∧
    strStartsWith "*foo.ts" "*." = false ∧
    ("barfoo.ts" : String) ≠ "*foo.ts" :=
  ⟨by decide, by decide, by decide⟩

/-- C3 amended: a pattern starting with `*` whose first `.` is at index ≥ 1
removes a file iff the filename ends with the pattern minus its leading `*`;
every other pattern removes a file iff the filename equals the pattern. -/
theorem C3_amended_ignore_pattern_filter (diff : List FileChange)
    (config : ReviewConfig) (patterns : List String)
    (hp : config.ignoreFiles = some patterns) (file : FileChange) :
    file ∈ BaseReviewModel.filterIgnoredFiles diff config ↔
      file ∈ diff ∧ ∀ pattern ∈ patterns,
        if strStartsWith pattern "*" ∧ 0 < strIndexOf pattern '.' then
          strEndsWith file.filename (String.mk (pattern.data.drop 1)) = false
        else file.filename ≠ pattern := by
  simp only [BaseReviewModel.filterIgnoredFiles, hp]
  by_cases hem : patterns.isEmpty
  · rw [if_pos hem]
    have hnil : patterns = [] := by
      cases patterns with
      | nil => rfl
      | cons a as => simp [List.isEmpty] at hem
    subst hnil
    simp
  · rw [if_neg hem, List.mem_filter]
    have hiff : ∀ pattern : String,
        matchesIgnore pattern file.filename = false ↔
          if strStartsWith pattern "*" ∧ 0 < strIndexOf pattern '.' then
            strEndsWith file.filename (String.mk (pattern.data.drop 1)) = false
          else file.filename ≠ pattern := by
      intro pattern
      unfold matchesIgnore
      by_cases hc : strStartsWith pattern "*" ∧ 0 < strIndexOf pattern '.'
      · rw [if_pos hc, if_pos hc]
      · rw [if_neg hc, if_neg hc]
        simp
    constructor
    · rintro ⟨hmem, hkeep⟩
      simp only [Bool.not_eq_true', List.any_eq_false] at hkeep
      exact ⟨hmem, fun pattern hpat =>
        (hiff pattern).mp (Bool.not_eq_true _ ▸ hkeep pattern hpat)⟩
    · rintro ⟨hmem, hkeep⟩
      refine ⟨hmem, ?_⟩
      simp only [Bool.not_eq_true', List.any_eq_false]
      exact fun pattern hpat => by
        have := (hiff pattern).mpr (hkeep pattern hpat)
        simp [this]

/-- Closed witness for `C3_amended_ignore_pattern_filter`: with patterns
`["*.ts", "README"]`, the file `keep.md` is kept and the characterization
holds at it. -/
theorem C3_witness :
    (⟨"keep.md", .modified, 1, 0, none, none⟩ : FileChange) ∈
        BaseReviewModel.filterIgnoredFiles
          [⟨"a.ts", .modified, 1, 0, none, none⟩,
           ⟨"README", .modified, 1, 0, none, none⟩,
           ⟨"keep.md", .modified, 1, 0, none, none⟩]
          ⟨none, none, some ["*.ts", "README"], none, none⟩ ↔
      (⟨"keep.md", .modified, 1, 0, none, none⟩ : FileChange) ∈
          [⟨"a.ts", .modified, 1, 0, none, none⟩,
           ⟨"README", .modified, 1, 0, none, none⟩,
           ⟨"keep.md", .modified, 1, 0, none, none⟩] ∧
        ∀ pattern ∈ (["*.ts", "README"] : List String),
          if strStartsWith pattern "*" ∧ 0 < strIndexOf pattern '.' then
            strEndsWith "keep.md" (String.mk (pattern.data.drop 1)) = false
          else ("keep.md" : String) ≠ pattern :=
  C3_amended_ignore_pattern_filter
    [⟨"a.ts", .modified, 1, 0, none, none⟩,
     ⟨"README", .modified, 1, 0, none, none⟩,
     ⟨"keep.md", .modified, 1, 0, none, none⟩]
    ⟨none, none, some ["*.ts", "README"], none, none⟩
    ["*.ts", "README"] rfl ⟨"keep.md", .modified, 1, 0, none, none⟩

/-! ## Decoded JSON values and the Response Schema Validator
(`src/schemas/validate.ts`) -/

/-- A decoded JSON value (the result of `JSON.parse`). -/
inductive Json where
  | null
  | bool (b : Bool)
  | num (q : ℚ)
  | str (s : String)
  | arr (elems : List Json)
  | obj (fields : List (String × Json))

/-- JavaScript property read `value[key]` on a decoded JSON value: `none`
models `undefined` (missing key or non-object receiver). -/
def jsonGet : Json → String → Option Json
  | .obj fields, key => (fields.find? (fun f => f.1 == key)).map (·.2)
  | _, _ => none

/-- `ValidationResult` from `src/schemas/validate.ts`. -/
structure ValidationResult where
  valid : Bool
  errors : List String
deriving DecidableEq, Repr

/-- `validSeverities` from `src/schemas/validate.ts`. -/
def validSeverities : List String := ["critical", "warning", "suggestion", "nitpick"]

/-- `validCategories` from `src/schemas/validate.ts`. -/
def validCategories : List String :=
  ["bug", "security", "performance", "style", "architecture", "testing"]

/-- `typeof v === "object" && v !== null` on a decoded JSON value (arrays are
objects in JavaScript, `null` is excluded by the explicit check). -/
def isJsObject : Json → Bool
  | .obj _ => true
  | .arr _ => true
  | _ => false

/-- `typeof v !== "string" || v.length === 0` on an optional field value. -/
def fieldNotNonEmptyString : Option Json → Bool
  | some (.str s) => s.length == 0
  | _ => true

/-- `typeof v !== "number" || !Number.isInteger(v) || v < 1`. -/
def lineFieldErr : Option Json → Bool
  | some (.num q) => !(q.den == 1) || decide (q < 1)
  | _ => true

/-- `!validSeverities.includes(v)` (a non-string never equals a string). -/
def severityFieldErr : Option Json → Bool
  | some (.str s) => !validSeverities.contains s
  | _ => true

/-- `!validCategories.includes(v)`. -/
def categoryFieldErr : Option Json → Bool
  | some (.str s) => !validCategories.contains s
  | _ => true

/-- `typeof v !== "number" || v < 0 || v > 1`. -/
def confidenceFieldErr : Option Json → Bool
  | some (.num q) => decide (q < 0) || decide (q > 1)
  | _ => true

/-- `v !== undefined && typeof v !== "string"`. -/
def suggestionFieldErr : Option Json → Bool
  | none => false
  | some (.str _) => false
  | some _ => true

/-- The error strings pushed by one iteration of the `for` loop in
`validateStructuredResponse`, in source order. -/
def commentErrors (i : Nat) (comment : Json) : List String :=
  if !isJsObject comment then [s!"comments[{i}] must be an object"]
  else
    (if fieldNotNonEmptyString (jsonGet comment "file") then
      [s!"comments[{i}].file is required and must be a non-empty string"] else []) ++
    (if lineFieldErr (jsonGet comment "line") then
      [s!"comments[{i}].line must be a positive integer"] else []) ++
    (if severityFieldErr (jsonGet comment "severity") then
      [s!"comments[{i}].severity must be one of: critical, warning, suggestion, nitpick"]
    else []) ++
    (if categoryFieldErr (jsonGet comment "category") then
      [s!"comments[{i}].category must be one of: bug, security, performance, style, architecture, testing"]
    else []) ++
    (if confidenceFieldErr (jsonGet comment "confidence") then
      [s!"comments[{i}].confidence must be a number between 0 and 1"] else []) ++
    (if fieldNotNonEmptyString (jsonGet comment "title") then
      [s!"comments[{i}].title is required and must be a non-empty string"] else []) ++
    (if fieldNotNonEmptyString (jsonGet comment "explanation") then
      [s!"comments[{i}].explanation is required and must be a non-empty string"] else []) ++
    (if suggestionFieldErr (jsonGet comment "suggestion") then
      [s!"comments[{i}].suggestion must be a string if provided"] else [])

/-- The trailing top-level `summary` type check of `validateStructuredResponse`. -/
def summaryErrors (data : Json) : List String :=
  match jsonGet data "summary" with
  | none => []
  | some (.str _) => []
  | some _ => ["'summary' must be a string if provided"]

/-- `validateStructuredResponse` from `src/schemas/validate.ts`. -/
def validateStructuredResponse (data : Json) : ValidationResult :=
  if !isJsObject data then { valid := false, errors := ["Response must be an object"] }
  else
    match jsonGet data "comments" with
    | some (.arr comments) =>
      let errors :=
        (comments.enum.map fun ic => commentErrors ic.1 ic.2).flatten ++
          summaryErrors data
      { valid := errors.isEmpty, errors := errors }
    | _ => { valid := false, errors := ["'comments' must be an array"] }

theorem commentErrors_mem_validate (data : Json) (cs : List Json) (i : Nat)
    (c : Json) (msg : String) (hobj : isJsObject data = true)
    (hc : jsonGet data "comments" = some (.arr cs)) (hic : cs[i]? = some c)
    (hmsg : msg ∈ commentErrors i c) :
    msg ∈ (validateStructuredResponse data).errors := by
  simp only [validateStructuredResponse, hobj, hc, Bool.not_true, Bool.false_eq_true,
    if_false]
  rw [List.mem_append]
  left
  rw [List.mem_flatten]
  refine ⟨commentErrors i c, ?_, hmsg⟩
  have henum : (i, c) ∈ cs.enum := List.mk_mem_enum_iff_getElem?.mpr hic
  exact List.mem_map.mpr ⟨(i, c), henum, rfl⟩

theorem isJsObject_of_jsonGet {data : Json} {k : String} {v : Json}
    (h : jsonGet data k = some v) : isJsObject data = true := by
  cases data <;> simp_all [jsonGet, isJsObject]

/-- C6: the Response Schema Validator is a total function whose result is
valid iff its error list is empty; a non-object top-level value, or a
missing/non-array `comments` field, yields an invalid result consisting of
exactly one error with no per-comment checks performed; and every per-comment
structural violation (non-object entry; empty or non-string file; non-integer
or < 1 line; severity outside the 4-value enum; category outside the 6-value
enum; non-numeric or out-of-range confidence; empty title; empty explanation;
present non-string suggestion) contributes at least one error. -/
theorem C6_validator_error_reporting (data : Json) :
    ((validateStructuredResponse data).valid = true ↔
      (validateStructuredResponse data).errors = []) ∧
    (isJsObject data = false →
      validateStructuredResponse data = ⟨false, ["Response must be an object"]⟩) ∧
    (isJsObject data = true →
      (∀ cs : List Json, jsonGet data "comments" ≠ some (.arr cs)) →
      validateStructuredResponse data = ⟨false, ["'comments' must be an array"]⟩) ∧
    ∀ cs : List Json, jsonGet data "comments" = some (.arr cs) →
      ∀ i : Nat, ∀ c : Json, cs[i]? = some c →
        (isJsObject c = false →
          s!"comments[{i}] must be an object" ∈
            (validateStructuredResponse data).errors) ∧
        (isJsObject c = true →
          (fieldNotNonEmptyString (jsonGet c "file") = true →
            s!"comments[{i}].file is required and must be a non-empty string" ∈
              (validateStructuredResponse data).errors) ∧
          (lineFieldErr (jsonGet c "line") = true →
            s!"comments[{i}].line must be a positive integer" ∈
              (validateStructuredResponse data).errors) ∧
          (severityFieldErr (jsonGet c "severity") = true →
            s!"comments[{i}].severity must be one of: critical, warning, suggestion, nitpick" ∈
              (validateStructuredResponse data).errors) ∧
          (categoryFieldErr (jsonGet c "category") = true →
            s!"comments[{i}].category must be one of: bug, security, performance, style, architecture, testing" ∈
              (validateStructuredResponse data).errors) ∧
          (confidenceFieldErr (jsonGet c "confidence") = true →
            s!"comments[{i}].confidence must be a number between 0 and 1" ∈
              (validateStructuredResponse data).errors) ∧
          (fieldNotNonEmptyString (jsonGet c "title") = true →
            s!"comments[{i}].title is required and must be a non-empty string" ∈
              (validateStructuredResponse data).errors) ∧
          (fieldNotNonEmptyString (jsonGet c "explanation") = true →
            s!"comments[{i}].explanation is required and must be a non-empty string" ∈
              (validateStructuredResponse data).errors) ∧
          (suggestionFieldErr (jsonGet c "suggestion") = true →
            s!"comments[{i}].suggestion must be a string if provided" ∈
              (validateStructuredResponse data).errors)) := by
  refine ⟨?_, ?_, ?_, ?_⟩
  · unfold validateStructuredResponse
    by_cases hobj : isJsObject data = true
    · rw [hobj]
      simp only [Bool.not_true, Bool.false_eq_true, if_false]
      split
      · simp [List.isEmpty_iff]
      · simp
    · rw [Bool.not_eq_true] at hobj
      rw [hobj]
      simp
  · intro h
    simp [validateStructuredResponse, h]
  · intro hobj hne
    unfold validateStructuredResponse
    rw [hobj]
    simp only [Bool.not_true, Bool.false_eq_true, if_false]
  · intro cs hc i c hic
    have hobj : isJsObject data = true := isJsObject_of_jsonGet hc
    refine ⟨fun hnc => commentErrors_mem_validate data cs i c _ hobj hc hic
      (by simp [commentErrors, hnc]), fun hoc => ?_⟩
    refine ⟨?_, ?_, ?_, ?_, ?_, ?_, ?_, ?_⟩ <;>
      intro hf <;>
      exact commentErrors_mem_validate data cs i c _ hobj hc hic
        (by simp [commentErrors, hoc, hf])

/-- Input for the witness of `C6_validator_error_reporting`: entry 0 is not an
object, entry 1 violates every per-comment field check. -/
def c6SampleData : Json :=
  Json.obj [("comments", Json.arr [Json.num 5,
    Json.obj [("file", Json.str ""), ("line", Json.num 0),
      ("severity", Json.str "error"), ("category", Json.str "lint"),
      ("confidence", Json.num 2), ("title", Json.str ""),
      ("explanation", Json.null), ("suggestion", Json.num 3)]])]

/-- The second entry of `c6SampleData`'s comments array. -/
def c6SampleEntry : Json :=
  Json.obj [("file", Json.str ""), ("line", Json.num 0),
    ("severity", Json.str "error"), ("category", Json.str "lint"),
    ("confidence", Json.num 2), ("title", Json.str ""),
    ("explanation", Json.null), ("suggestion", Json.num 3)]

/-- Closed witness for `C6_validator_error_reporting`. -/
theorem C6_witness :
    ("comments[0] must be an object" ∈
      (validateStructuredResponse c6SampleData).errors) ∧
    ("comments[1].file is required and must be a non-empty string" ∈
      (validateStructuredResponse c6SampleData).errors) ∧
    ("comments[1].line must be a positive integer" ∈
      (validateStructuredResponse c6SampleData).errors) ∧
    ("comments[1].severity must be one of: critical, warning, suggestion, nitpick" ∈
      (validateStructuredResponse c6SampleData).errors) ∧
    ("comments[1].category must be one of: bug, security, performance, style, architecture, testing" ∈
      (validateStructuredResponse c6SampleData).errors) ∧
    ("comments[1].confidence must be a number between 0 and 1" ∈
      (validateStructuredResponse c6SampleData).errors) ∧
    ("comments[1].title is required and must be a non-empty string" ∈
      (validateStructuredResponse c6SampleData).errors) ∧
    ("comments[1].explanation is required and must be a non-empty string" ∈
      (validateStructuredResponse c6SampleData).errors) ∧
    ("comments[1].suggestion must be a string if provided" ∈
      (validateStructuredResponse c6SampleData).errors) := by
  have h := (C6_validator_error_reporting c6SampleData).2.2.2
    [Json.num 5, c6SampleEntry] rfl
  have h0 := (h 0 (Json.num 5) rfl).1 rfl
  have h1 := (h 1 c6SampleEntry rfl).2 rfl
  exact ⟨h0, h1.1 rfl, h1.2.1 (by decide), h1.2.2.1 (by decide), h1.2.2.2.1 (by decide),
    h1.2.2.2.2.1 (by decide), h1.2.2.2.2.2.1 rfl, h1.2.2.2.2.2.2.1 rfl,
    h1.2.2.2.2.2.2.2 rfl⟩

/-! ## Structured review responses and the Comment Normalizer
(`src/schemas/review-response.ts`, `BaseReviewModel.parseStructuredResponse`) -/

/-- `StructuredComment` from `src/schemas/review-response.ts`; `severity` and
`category` are kept as strings because the Normalizer indexes them into string
lists, and validated values always lie in the respective enums. -/
structure StructuredComment where
  file : String
  line : ℚ
  severity : String
  category : String
  confidence : ℚ
  title : String
  explanation : String
  suggestion : Option String
deriving DecidableEq, Repr

/-- `StructuredReviewResponse` from `src/schemas/review-response.ts`. -/
structure StructuredReviewResponse where
  summary : Option String
  comments : List StructuredComment
deriving DecidableEq, Repr

/-- `capitalize` from `src/schemas/review-response.ts`
(`charAt(0).toUpperCase() + slice(1)`). -/
def capitalize (str : String) : String :=
  match str.data with
  | [] => ""
  | c :: cs => String.mk (c.toUpper :: cs)

/-- JavaScript `Math.round` (half rounds toward positive infinity). -/
def jsRound (q : ℚ) : Int := ⌊q + 1 / 2⌋

/-- The `severityMap` record lookup in `toAIComment`; `none` models
`undefined` for keys outside the record. -/
def severityMapJs (s : String) : Option String :=
  if s == "critical" then some "error"
  else if s == "warning" then some "warning"
  else if s == "suggestion" then some "suggestion"
  else if s == "nitpick" then some "suggestion"
  else none

/-- JavaScript truthiness of the optional `suggestion` string. -/
def suggestionTruthy : Option String → Bool
  | none => false
  | some s => !(s == "")

/-- `toAIComment` from `src/schemas/review-response.ts`. -/
def toAIComment (comment : StructuredComment) : AIComment :=
  let content := "**[" ++ capitalize comment.category ++ "] " ++ comment.title ++ "**"
  let confidencePercent := jsRound (comment.confidence * 100)
  let content := content ++ " (confidence: " ++ toString confidencePercent ++ "%)"
  let content := content ++ "\n\n" ++ comment.explanation
  let content :=
    if suggestionTruthy comment.suggestion then
      content ++ "\n\n**Suggestion:**\n```\n" ++ comment.suggestion.getD "" ++ "\n```"
    else content
  { type := "inline"
    path := some comment.file
    line := some comment.line
    content := content
    severity := severityMapJs comment.severity }

/-- `severityOrder` from `BaseReviewModel.parseStructuredResponse`. -/
def severityOrder : List String := ["critical", "warning", "suggestion", "nitpick"]

/-- `Array.prototype.indexOf`, returning -1 when the element is absent. -/
def jsIndexOf : List String → String → Int
  | [], _ => -1
  | a :: rest, x =>
    if a == x then 0
    else
      let r := jsIndexOf rest x
      if r == -1 then -1 else r + 1

/-- `(config.severity as CommentSeverity) || "suggestion"`: the `||` fallback
applies only to falsy values (absent or empty string); any other string — for
example `"error"` — passes through unchanged. -/
def minSeverityOf (config : ReviewConfig) : String :=
  match config.severity with
  | none => "suggestion"
  | some s => if s == "" then "suggestion" else s

/-- The `for` loop over `structuredResponse.comments` in
`BaseReviewModel.parseStructuredResponse`: severity filter, fixed 0.6
confidence filter, then conversion via `toAIComment`. -/
def normalizeLoop (config : ReviewConfig) : List StructuredComment → List AIComment
  | [] => []
  | structuredComment :: rest =>
    let commentSeverityIndex := jsIndexOf severityOrder structuredComment.severity
    let minSeverityIndex := jsIndexOf severityOrder (minSeverityOf config)
    if commentSeverityIndex > minSeverityIndex then normalizeLoop config rest
    else if structuredComment.confidence < 0.6 then normalizeLoop config rest
    else toAIComment structuredComment :: normalizeLoop config rest

/-- The Comment Normalizer: the part of
`BaseReviewModel.parseStructuredResponse` that runs on a successfully parsed
`StructuredReviewResponse` (optional summary push, then the filtering loop). -/
def normalizeComments (config : ReviewConfig) (resp : StructuredReviewResponse) :
    List AIComment :=
  (match resp.summary with
   | some s =>
     if s == "" then []
     else [{ type := "summary", path := none, line := none, content := s,
             severity := config.severity }]
   | none => []) ++ normalizeLoop config resp.comments

theorem normalizeLoop_eq_filter (config : ReviewConfig)
    (comments : List StructuredComment) :
    normalizeLoop config comments =
      (comments.filter fun c =>
        !decide (jsIndexOf severityOrder c.severity >
          jsIndexOf severityOrder (minSeverityOf config)) &&
        !decide (c.confidence < 0.6)).map toAIComment := by
  induction comments with
  | nil => rfl
  | cons c rest ih =>
    simp only [normalizeLoop, List.filter_cons]
    by_cases h1 : jsIndexOf severityOrder c.severity >
        jsIndexOf severityOrder (minSeverityOf config)
    · simp [h1, ih]
    · by_cases h2 : c.confidence < 0.6
      · simp [h1, h2, ih]
      · simp [h1, h2, ih]

/-- The claimed threshold: the configured severity's index in the ranking,
defaulting to the index of "suggestion" (2) whenever the configured severity
is unset or not one of the four ranking values (in particular for "error").
Stated from the claim's words for comparison with the code's behaviour. -/
def claimedMinSeverityIndex (config : ReviewConfig) : Int :=
  match config.severity with
  | some s => if s ∈ severityOrder then jsIndexOf severityOrder s else 2
  | none => 2

/-- C1 counterexample: with configured severity `"error"`, the claimed
threshold is the index of "suggestion" (2) and a critical comment (index
0 ≤ 2) would be emitted — but the code computes `indexOf("error") = -1` as
the threshold, so the Normalizer drops even a critical, full-confidence
comment. -/
theorem C1_counterexample :
    claimedMinSeverityIndex ⟨some "error", none, none, none, none⟩ = 2 ∧
    jsIndexOf severityOrder "critical" ≤ 2 ∧
    jsIndexOf severityOrder (minSeverityOf ⟨some "error", none, none, none, none⟩) = -1 ∧
    normalizeComments ⟨some "error", none, none, none, none⟩
      ⟨none, [⟨"a.ts", 1, "critical", "bug", 1, "t", "e", none⟩]⟩ = [] := by
  refine ⟨by decide, by decide, by decide, ?_⟩
  show (([] : List AIComment) ++ normalizeLoop _ _) = []
  rw [List.nil_append, normalizeLoop]
  rw [if_pos (by decide)]
  rfl

/-- The effective minimum-severity threshold index the code uses:
`indexOf(minSeverity)` where `minSeverity` falls back to "suggestion" only
for unset/empty config values; an unrecognized value such as "error" yields
-1, below every comment's index. -/
def effectiveMinSeverityIndex (config : ReviewConfig) : Int :=
  jsIndexOf severityOrder (minSeverityOf config)

/-- C1 amended: for every ReviewConfig and comment list, a comment survives
the Normalizer iff its severity index is not strictly greater than the
effective threshold index and its confidence is at least 0.6, where the
effective threshold is the index of the configured severity when set and
nonempty (hence -1 for any value outside the four-element ranking, e.g.
"error", so every comment is skipped), and the index of "suggestion" when
unset or empty. -/
theorem C1_amended_severity_threshold (config : ReviewConfig)
    (comments : List StructuredComment) :
    normalizeComments config ⟨none, comments⟩ =
      (comments.filter fun c =>
        !decide (jsIndexOf severityOrder c.severity > effectiveMinSeverityIndex config) &&
        !decide (c.confidence < 0.6)).map toAIComment := by
  show (([] : List AIComment) ++ normalizeLoop config comments) = _
  rw [List.nil_append, normalizeLoop_eq_filter]
  rfl

theorem normalizeComments_singleton (config : ReviewConfig) (c : StructuredComment) :
    normalizeComments config ⟨none, [c]⟩ =
      if ¬ c.confidence < 0.6 ∧
          jsIndexOf severityOrder c.severity ≤ effectiveMinSeverityIndex config
      then [toAIComment c] else [] := by
  show (([] : List AIComment) ++ normalizeLoop config [c]) = _
  rw [List.nil_append, normalizeLoop_eq_filter]
  simp only [List.filter_cons, List.filter_nil]
  by_cases hP : ¬ c.confidence < 0.6 ∧
      jsIndexOf severityOrder c.severity ≤ effectiveMinSeverityIndex config
  · rw [if_pos hP]
    have h1 : ¬ jsIndexOf severityOrder c.severity >
        jsIndexOf severityOrder (minSeverityOf config) := not_lt.mpr hP.2
    simp [h1, hP.1]
  · rw [if_neg hP]
    rw [not_and_or, not_not] at hP
    rcases hP with h2 | h1
    · simp [h2]
    · have h1' : jsIndexOf severityOrder c.severity >
          jsIndexOf severityOrder (minSeverityOf config) := lt_of_not_le h1
      simp [h1']

/-- Configuration used in the C5 boundary checks. -/
def c5Config (sev : String) : ReviewConfig := ⟨some sev, none, none, none, none⟩

/-- Comment used in the C5 boundary checks. -/
def c5Comment (sev : String) (conf : ℚ) : StructuredComment :=
  ⟨"a.ts", 1, sev, "bug", conf, "t", "e", none⟩

/-- C5: a validated StructuredComment is emitted iff it passes both
independent filters — confidence ≥ 0.6 (a fixed bound: the same condition for
every config) and severity index at most the threshold index — together with
the boundary instances: confidence 0.6 passes and 0.59999 fails; with
threshold `suggestion` a `nitpick` comment is dropped and a `suggestion`
comment passes; with threshold `nitpick` both pass. -/
theorem C5_confidence_and_severity_filters :
    (∀ config : ReviewConfig, ∀ c : StructuredComment,
      normalizeComments config ⟨none, [c]⟩ =
        if ¬ c.confidence < 0.6 ∧
            jsIndexOf severityOrder c.severity ≤ effectiveMinSeverityIndex config
        then [toAIComment c] else []) ∧
    normalizeComments (c5Config "suggestion") ⟨none, [c5Comment "suggestion" 0.6]⟩ =
      [toAIComment (c5Comment "suggestion" 0.6)] ∧
    normalizeComments (c5Config "suggestion") ⟨none, [c5Comment "suggestion" 0.59999]⟩ =
      [] ∧
    normalizeComments (c5Config "suggestion") ⟨none, [c5Comment "nitpick" 1]⟩ = [] ∧
    normalizeComments (c5Config "nitpick") ⟨none, [c5Comment "nitpick" 1]⟩ =
      [toAIComment (c5Comment "nitpick" 1)] ∧
    normalizeComments (c5Config "nitpick") ⟨none, [c5Comment "suggestion" 1]⟩ =
      [toAIComment (c5Comment "suggestion" 1)] := by
  refine ⟨fun config c => normalizeComments_singleton config c, ?_, ?_, ?_, ?_, ?_⟩
  · rw [normalizeComments_singleton]
    exact if_pos ⟨by norm_num [c5Comment], by decide⟩
  · rw [normalizeComments_singleton]
    exact if_neg (fun hc => hc.1 (by norm_num [c5Comment]))
  · rw [normalizeComments_singleton]
    exact if_neg (fun hc => absurd hc.2 (by decide))
  · rw [normalizeComments_singleton]
    exact if_pos ⟨by norm_num [c5Comment], by decide⟩
  · rw [normalizeComments_singleton]
    exact if_pos ⟨by norm_num [c5Comment], by decide⟩

/-! ## Legacy Free-Text Parser (`BaseReviewModel.parseFreeTextResponse`)

The inline-comment regex
`/([\w\/.-]+):(\d+)\s*[—–-]\s*(.*?)(?=\s+[\w\/.-]+:\d+\s*[—–-]|$)/gs`
is modelled by a character-level matcher: the character classes are disjoint
from their followers, so the greedy `+`/`*` pieces are deterministic, the lazy
`(.*?)` takes the shortest prefix whose remainder satisfies the lookahead, and
the `g` loop resumes after each match (matches are nonempty, so `lastIndex`
always advances). -/

/-- ASCII `\w`. -/
def isWordChar (c : Char) : Bool := c.isAlphanum || c == '_'

/-- The path class `[\w/.-]`. -/
def isPathChar (c : Char) : Bool := isWordChar c || c == '/' || c == '.' || c == '-'

/-- The dash alternatives `[—–-]` (em dash, en dash, hyphen). -/
def isDashChar (c : Char) : Bool := c == '—' || c == '–' || c == '-'

/-- The zero-width lookahead `(?=\s+[\w/.-]+:\d+\s*[—–-]|$)`; `$` is end of
input (no `m` flag). -/
def inlineLookahead (cs : List Char) : Bool :=
  cs.isEmpty ||
  (!(cs.takeWhile isSpaceJs).isEmpty &&
    (let r1 := cs.dropWhile isSpaceJs
     !(r1.takeWhile isPathChar).isEmpty &&
       match r1.dropWhile isPathChar with
       | ':' :: r3 =>
         !(r3.takeWhile Char.isDigit).isEmpty &&
           match (r3.dropWhile Char.isDigit).dropWhile isSpaceJs with
           | d :: _ => isDashChar d
           | [] => false
       | _ => false))

/-- The lazy group `(.*?)`: the shortest prefix whose remainder satisfies the
lookahead (under `/s` the dot also matches newlines). -/
def lazyContent : List Char → List Char × List Char
  | [] => ([], [])
  | c :: rest =>
    if inlineLookahead (c :: rest) then ([], c :: rest)
    else
      let (content, rem) := lazyContent rest
      (c :: content, rem)

/-- One attempted match of the pattern starting exactly at the current
position, returning the three captures and the input remaining after the
match end. -/
def matchInlineAt (cs : List Char) : Option (String × String × String × List Char) :=
  let path := cs.takeWhile isPathChar
  if path.isEmpty then none
  else
    match cs.dropWhile isPathChar with
    | ':' :: r2 =>
      let digits := r2.takeWhile Char.isDigit
      if digits.isEmpty then none
      else
        match (r2.dropWhile Char.isDigit).dropWhile isSpaceJs with
        | d :: r4 =>
          if isDashChar d then
            let (content, rem) := lazyContent (r4.dropWhile isSpaceJs)
            some (String.mk path, String.mk digits, String.mk content, rem)
          else none
        | [] => none
    | _ => none

/-- The `exec` loop with the `g` flag: find the leftmost match by trying each
start position, emit it, resume after its end.  The fuel is an upper bound on
the number of steps: every step either consumes a (nonempty) match or advances
one position, so `length + 1` never truncates. -/
def execInlineAux : Nat → List Char → List (String × String × String)
  | 0, _ => []
  | _ + 1, [] => []
  | fuel + 1, cs =>
    match matchInlineAt cs with
    | some (path, digits, content, rem) =>
      (path, digits, content) :: execInlineAux fuel rem
    | none =>
      match cs with
      | [] => []
      | _ :: rest => execInlineAux fuel rest

/-- All matches of the inline-comment pattern in a string. -/
def execInline (s : String) : List (String × String × String) :=
  execInlineAux (s.data.length + 1) s.data

/-- `parseInt(lineStr, 10)` on a `\d+` capture, as a JavaScript number. -/
def parseDigitsJs (s : String) : ℚ := (digitsToNat s.data : ℚ)

/-- `BaseReviewModel.parseFreeTextResponse` from `src/models/base.ts`. -/
def BaseReviewModel.parseFreeTextResponse (response : String)
    (config : ReviewConfig) : List AIComment :=
  if config.commentStyle == some "summary" then
    [{ type := "summary", path := none, line := none,
       content := strTrim response, severity := config.severity }]
  else
    let comments : List AIComment :=
      (execInline (response ++ "\n\n")).map fun m =>
        { type := "inline", path := some m.1, line := some (parseDigitsJs m.2.1),
          content := strTrim m.2.2, severity := config.severity }
    if comments.isEmpty then
      [{ type := "summary", path := none, line := none,
         content := strTrim response, severity := config.severity }]
    else comments

/-- C7: the Legacy Free-Text Parser always returns at least one comment; with
`commentStyle = summary` it returns exactly one summary comment whose content
is the trimmed full response; otherwise, whenever the inline pattern yields
zero matches, it returns exactly one summary comment with the trimmed full
response. -/
theorem C7_legacy_parser_fallback (response : String) (config : ReviewConfig) :
    BaseReviewModel.parseFreeTextResponse response config ≠ [] ∧
    (config.commentStyle = some "summary" →
      BaseReviewModel.parseFreeTextResponse response config =
        [{ type := "summary", path := none, line := none,
           content := strTrim response, severity := config.severity }]) ∧
    (config.commentStyle ≠ some "summary" →
      execInline (response ++ "\n\n") = [] →
      BaseReviewModel.parseFreeTextResponse response config =
        [{ type := "summary", path := none, line := none,
           content := strTrim response, severity := config.severity }]) := by
  unfold BaseReviewModel.parseFreeTextResponse
  by_cases hs : config.commentStyle = some "summary"
  · simp [hs]
  · have hs' : (config.commentStyle == some "summary") = false := by
      simp [hs]
    rw [hs']
    simp only [Bool.false_eq_true, if_false]
    refine ⟨?_, fun h => absurd h hs, fun _ hzero => ?_⟩
    · by_cases hem :
          ((execInline (response ++ "\n\n")).map fun m =>
            ({ type := "inline", path := some m.1, line := some (parseDigitsJs m.2.1),
               content := strTrim m.2.2, severity := config.severity } : AIComment)).isEmpty
      · simp [hem]
      · rw [if_neg (by simpa using hem)]
        intro hcon
        rw [hcon] at hem
        exact hem rfl
    · rw [hzero]
      simp

/-- Closed witness for `C7_legacy_parser_fallback`: the prose response
"looks good" has no inline matches and becomes a single summary comment; with
`commentStyle = summary` the response is returned as a single summary comment
without parsing. -/
theorem C7_witness :
    execInline ("looks good" ++ "\n\n") = [] ∧
    BaseReviewModel.parseFreeTextResponse "looks good"
        ⟨some "warning", none, none, none, none⟩ =
      [{ type := "summary", path := none, line := none,
         content := strTrim "looks good", severity := some "warning" }] ∧
    BaseReviewModel.parseFreeTextResponse "a.ts:5 — fix"
        ⟨some "warning", some "summary", none, none, none⟩ =
      [{ type := "summary", path := none, line := none,
         content := strTrim "a.ts:5 — fix", severity := some "warning" }] :=
  ⟨by decide,
   (C7_legacy_parser_fallback "looks good"
       ⟨some "warning", none, none, none, none⟩).2.2 (by decide) (by decide),
   (C7_legacy_parser_fallback "a.ts:5 — fix"
       ⟨some "warning", some "summary", none, none, none⟩).2.1 rfl⟩

/-! ## Structured Response Parser (`src/schemas/validate.ts`) and the
structured branch of the Orchestrator (`BaseReviewModel.parseStructuredResponse`) -/

/-- `looksLikeStructuredResponse` from `src/schemas/validate.ts`: trimmed text
must start with a brace, decode as JSON, and have an array `comments` field;
never throws (a decode failure returns false). -/
def looksLikeStructuredResponse (jsonParse : String → Option Json)
    (response : String) : Bool :=
  let trimmed := strTrim response
  if !strStartsWith trimmed "\x7b" then false
  else
    match jsonParse trimmed with
    | none => false
    | some parsed =>
      match jsonGet parsed "comments" with
      | some (.arr _) => true
      | _ => false

/-- Read a string property, `none` for `undefined` or a non-string value. -/
def asStringOpt : Option Json → Option String
  | some (.str s) => some s
  | _ => none

/-- The unchecked cast `parsed as StructuredReviewResponse`: fields are
transferred as-is.  It is only applied to validator-accepted values, where
every fallback default below is dead code. -/
def decodeComment (j : Json) : StructuredComment :=
  { file := (asStringOpt (jsonGet j "file")).getD ""
    line := match jsonGet j "line" with | some (.num q) => q | _ => 0
    severity := (asStringOpt (jsonGet j "severity")).getD ""
    category := (asStringOpt (jsonGet j "category")).getD ""
    confidence := match jsonGet j "confidence" with | some (.num q) => q | _ => 0
    title := (asStringOpt (jsonGet j "title")).getD ""
    explanation := (asStringOpt (jsonGet j "explanation")).getD ""
    suggestion := asStringOpt (jsonGet j "suggestion") }

/-- The unchecked cast at the response level. -/
def decodeStructured (j : Json) : StructuredReviewResponse :=
  { summary := asStringOpt (jsonGet j "summary")
    comments :=
      match jsonGet j "comments" with
      | some (.arr cs) => cs.map decodeComment
      | _ => [] }

/-- `parseStructuredResponse` from `src/schemas/validate.ts`: decode, then
validate, producing a typed result or a tagged failure (`JSON.parse` is the
abstracted builtin; its thrown SyntaxError becomes the "JSON parse error"
failure).  Namespaced `Validate` to keep it apart from the equally named
method of `BaseReviewModel`. -/
def Validate.parseStructuredResponse (jsonParse : String → Option Json)
    (json : String) : Except String StructuredReviewResponse :=
  match jsonParse json with
  | none => .error "JSON parse error"
  | some parsed =>
    let validation := validateStructuredResponse parsed
    if !validation.valid then
      .error ("Validation failed: " ++ String.intercalate "; " validation.errors)
    else .ok (decodeStructured parsed)

/-- `BaseReviewModel.parseStructuredResponse` from `src/models/base.ts`: the
structured branch of the Orchestrator's dispatch, falling back to legacy
parsing when the pre-check or the parser fails, and otherwise running the
Normalizer. -/
def BaseReviewModel.parseStructuredResponse (jsonParse : String → Option Json)
    (response : String) (config : ReviewConfig) : List AIComment :=
  if !looksLikeStructuredResponse jsonParse response then
    BaseReviewModel.parseFreeTextResponse response config
  else
    match Validate.parseStructuredResponse jsonParse response with
    | .error _ => BaseReviewModel.parseFreeTextResponse response config
    | .ok structuredResponse => normalizeComments config structuredResponse

theorem normalizeLoop_commentStyle (config : ReviewConfig) (style : Option String)
    (cs : List StructuredComment) :
    normalizeLoop { config with commentStyle := style } cs = normalizeLoop config cs := by
  induction cs with
  | nil => rfl
  | cons c rest ih =>
    simp only [normalizeLoop, ih]
    rfl

theorem mem_normalizeLoop_is_converted {config : ReviewConfig}
    {cs : List StructuredComment} {x : AIComment}
    (hx : x ∈ normalizeLoop config cs) : ∃ c : StructuredComment, x = toAIComment c := by
  rw [normalizeLoop_eq_filter] at hx
  obtain ⟨c, -, hc⟩ := List.mem_map.mp hx
  exact ⟨c, hc.symm⟩

/-- C10: when the pre-check, JSON parsing and validation succeed, the
structured branch hands the parsed response to the Normalizer; every comment
surviving the Normalizer's filters is emitted as an inline comment carrying a
path and a line — and the result does not depend on `commentStyle` at all
(in particular it is unchanged for `commentStyle = summary`); the setting can
influence output shape only on the legacy free-text path. -/
theorem C10_structured_output_inline_shape (jsonParse : String → Option Json)
    (response : String) (config : ReviewConfig) (d : StructuredReviewResponse)
    (hlooks : looksLikeStructuredResponse jsonParse response = true)
    (hparse : Validate.parseStructuredResponse jsonParse response = .ok d) :
    BaseReviewModel.parseStructuredResponse jsonParse response config =
      normalizeComments config d ∧
    (∀ x ∈ normalizeLoop config d.comments,
      x.type = "inline" ∧ x.path ≠ none ∧ x.line ≠ none) ∧
    ∀ style : Option String,
      BaseReviewModel.parseStructuredResponse jsonParse response
          { config with commentStyle := style } =
        BaseReviewModel.parseStructuredResponse jsonParse response config := by
  have hmain : ∀ cfg : ReviewConfig,
      BaseReviewModel.parseStructuredResponse jsonParse response cfg =
        normalizeComments cfg d := by
    intro cfg
    unfold BaseReviewModel.parseStructuredResponse
    rw [hlooks, hparse]
    simp
  refine ⟨hmain config, ?_, ?_⟩
  · intro x hx
    obtain ⟨c, hc⟩ := mem_normalizeLoop_is_converted hx
    subst hc
    exact ⟨rfl, by simp [toAIComment], by simp [toAIComment]⟩
  · intro style
    rw [hmain, hmain]
    unfold normalizeComments
    rw [normalizeLoop_commentStyle]

/-- Decoded JSON value used by the C10 witness. -/
def c10Json : Json :=
  Json.obj [("summary", Json.str "ok"),
    ("comments", Json.arr [Json.obj [("file", Json.str "a.ts"),
      ("line", Json.num 1), ("severity", Json.str "critical"),
      ("category", Json.str "bug"), ("confidence", Json.num 1),
      ("title", Json.str "t"), ("explanation", Json.str "e"),
      ("suggestion", Json.str "")]])]

/-- Raw response text used by the C10 witness. -/
def c10Response : String := "\x7bstub\x7d"

/-- `JSON.parse` stand-in for the C10 witness. -/
def c10Parse : String → Option Json := fun s =>
  if s == c10Response then some c10Json else none

/-- Config with `commentStyle = summary` used by the C10 witness. -/
def c10Config : ReviewConfig := ⟨some "suggestion", some "summary", none, none, none⟩

/-- Closed witness for `C10_structured_output_inline_shape`: even with
`commentStyle = summary` the structured branch output is the Normalizer's
output, and changing `commentStyle` does not change it. -/
theorem C10_witness :
    BaseReviewModel.parseStructuredResponse c10Parse c10Response c10Config =
      normalizeComments c10Config (decodeStructured c10Json) ∧
    BaseReviewModel.parseStructuredResponse c10Parse c10Response
        { c10Config with commentStyle := none } =
      BaseReviewModel.parseStructuredResponse c10Parse c10Response c10Config :=
  ⟨(C10_structured_output_inline_shape c10Parse c10Response c10Config
      (decodeStructured c10Json) (by decide) rfl).1,
   (C10_structured_output_inline_shape c10Parse c10Response c10Config
      (decodeStructured c10Json) (by decide) rfl).2.2 none⟩

/-! ## Review Orchestrator (`BaseReviewModel.review`) -/

/-- `LLMMessage` from `src/models/base.ts`. -/
structure LLMMessage where
  role : String
  content : String
deriving DecidableEq, Repr

/-- `BaseReviewModel.getSystemPrompt` from `src/models/base.ts`. -/
def BaseReviewModel.getSystemPrompt (_config : ReviewConfig) : String :=
  "You are a senior software engineer doing a peer code review. Your job is to spot all logic, syntax, and semantic issues in a code diff. Always respond with valid JSON matching the requested schema."

/-- The `(${file.status})` rendering in the prompt. -/
def FileStatus.text : FileStatus → String
  | .added => "added"
  | .modified => "modified"
  | .deleted => "deleted"
  | .renamed => "renamed"

/-- The fixed leading part of the `generatePrompt` template (braces written
with hex escapes). -/
def promptTemplateHead : String :=
  "\nReview the following code changes and provide specific, actionable feedback.\n\nOutput your response as a JSON object matching this structure:\n\x7b\n  \"summary\": \"Brief overall assessment (optional)\",\n  \"comments\": [\n    \x7b\n      \"file\": \"path/to/file.ts\",\n      \"line\": 42,\n      \"severity\": \"critical|warning|suggestion|nitpick\",\n      \"category\": \"bug|security|performance|style|architecture|testing\",\n      \"confidence\": 0.95,\n      \"title\": \"One-line summary of the issue (max 80 chars)\",\n      \"explanation\": \"Detailed explanation of why this is an issue\",\n      \"suggestion\": \"Suggested fix or improvement (use empty string if none)\"\n    \x7d\n  ]\n\x7d\n\nSeverity levels:\n- critical: Bugs, security vulnerabilities, or data loss risks\n- warning: Potential issues or code smells\n- suggestion: Improvements that would be nice to have\n- nitpick: Minor style preferences\n\nCategories:\n- bug: Logic errors, incorrect behavior\n- security: Security vulnerabilities, unsafe practices\n- performance: Performance bottlenecks, inefficiencies\n- style: Code style, formatting, naming\n- architecture: Design patterns, code organization\n- testing: Test coverage, test quality\n\nImportant rules:\n- Only comment on lines that are part of the diff (added or modified)\n- Do not comment on unchanged context lines unless directly impacted\n- Be specific and actionable in your feedback\n- Use direct, professional tone\n- Include a suggestion when you can provide a concrete improvement\n"

/-- `BaseReviewModel.generatePrompt` from `src/models/base.ts`. -/
def BaseReviewModel.generatePrompt (diff : List FileChange)
    (config : ReviewConfig) : String :=
  let rules :=
    match config.rules with
    | some rs =>
      if rs.length > 0 then
        "\nApply these specific rules:\n" ++
          String.intercalate "\n" (rs.map fun rule => "- " ++ rule)
      else ""
    | none => ""
  let diffText := String.intercalate "\n\n" (diff.map fun file =>
    "File: " ++ file.filename ++ " (" ++ file.status.text ++ ")\n" ++
      (match file.patch with
       | some p => if p == "" then "No changes" else p
       | none => "No changes") ++ "\n")
  promptTemplateHead ++ rules ++ "\n\nHere are the changes to review:\n\n" ++
    diffText ++ "\n\n" ++ (config.customPrompt.getD "")

/-- `BaseReviewModel.review` from `src/models/base.ts`.  The provider hooks
are parameters: `callLLM` is the abstract transport (`Except.error` models a
rejected promise, which `review` logs and rethrows unchanged) and
`supportsStructured` is `supportsStructuredOutput()`.  The second component
of the result counts transport invocations. -/
def BaseReviewModel.review
    (callLLM : List LLMMessage → ReviewConfig → Except String String)
    (supportsStructured : Bool) (jsonParse : String → Option Json)
    (diff : List FileChange) (config : ReviewConfig) :
    Except String (List AIComment) × Nat :=
  let filteredDiff := BaseReviewModel.filterIgnoredFiles diff config
  if filteredDiff.length = 0 then
    (.ok [{ type := "summary", path := none, line := none,
            content := "No files to review after applying ignore patterns.",
            severity := some "suggestion" }], 0)
  else
    let prompt := BaseReviewModel.generatePrompt filteredDiff config
    let systemPrompt := BaseReviewModel.getSystemPrompt config
    match callLLM [⟨"system", systemPrompt⟩, ⟨"user", prompt⟩] config with
    | .ok raw =>
      (.ok (if supportsStructured then
          BaseReviewModel.parseStructuredResponse jsonParse raw config
        else BaseReviewModel.parseFreeTextResponse raw config), 1)
    | .error e => (.error e, 1)

/-- C8: when the ignore-pattern filter removes every file, the Orchestrator
returns exactly one summary comment with content "No files to review after
applying ignore patterns." and the model transport is invoked zero times. -/
theorem C8_all_files_ignored_short_circuit
    (callLLM : List LLMMessage → ReviewConfig → Except String String)
    (supportsStructured : Bool) (jsonParse : String → Option Json)
    (diff : List FileChange) (config : ReviewConfig)
    (h : BaseReviewModel.filterIgnoredFiles diff config = []) :
    BaseReviewModel.review callLLM supportsStructured jsonParse diff config =
      (.ok [{ type := "summary", path := none, line := none,
              content := "No files to review after applying ignore patterns.",
              severity := some "suggestion" }], 0) := by
  unfold BaseReviewModel.review
  rw [h]
  rfl

/-- Closed witness for `C8_all_files_ignored_short_circuit`: one file, matched
by the pattern `*.ts`, with a transport that would return a nonempty
response. -/
theorem C8_witness :
    BaseReviewModel.review (fun _ _ => .ok "response") true (fun _ => none)
        [⟨"a.ts", .modified, 1, 0, none, none⟩]
        ⟨none, none, some ["*.ts"], none, none⟩ =
      (.ok [{ type := "summary", path := none, line := none,
              content := "No files to review after applying ignore patterns.",
              severity := some "suggestion" }], 0) :=
  C8_all_files_ignored_short_circuit (fun _ _ => .ok "response") true (fun _ => none)
    [⟨"a.ts", .modified, 1, 0, none, none⟩]
    ⟨none, none, some ["*.ts"], none, none⟩ (by decide)
